import Mathlib

/-!
# terraform-provider-airbrake: the API client, the provider configuration and the hooks

A shallow embedding of `internal/airbrake/client.go`, `internal/airbrake/project.go`,
of `Configure` in `internal/provider/provider.go` and of the lifecycle hooks in
`internal/provider/project_resource.go` and `internal/provider/project_data_source.go`.

Everything outside the repository is a parameter: the Go HTTP library together with the
network and the remote service (`World.http`), the `encoding/json` decoders
(`World.jsonResponse`, `World.jsonProject`, `World.jsonObject`), the process
environment (`os.Getenv`) and the diagnostics of the framework calls (`Config.Get`,
`Plan.Get`, `State.Get`, `State.Set`).  `strconv.Itoa` and `strconv.Atoi` are written out.
Side effects are explicit: every verb operation of the client takes the log of the
requests handed to `client.Do` so far and returns the extended log.
-/

namespace Airbrake

/-- Go `error` values are kept as their message; `Option Error` is an `error` that may be nil. -/
abbrev Error := String

/-- Go `[]byte`; the nil slice is the empty string. -/
abbrev Bytes := String

/-- Go `map[string]string`, as the list of its entries (the keys of one map are distinct). -/
abbrev StrMap := List (String × String)

/-- The four HTTP methods the client uses. -/
inductive Method where
  | GET
  | POST
  | PUT
  | DELETE
  deriving DecidableEq, Repr

/-- One request as a verb operation hands it to `client.Do`.
`url` is the string given to `http.NewRequest`; `query` holds the pairs the operation adds
to the query of that URL (`q.Add`), before `q.Encode()`; `contentType` is the header set by
`Put`; `body` is the map whose JSON encoding is the request body. -/
structure Request where
  method : Method
  url : String
  query : StrMap
  contentType : Option String
  body : Option StrMap
  deriving DecidableEq, Repr

/-- What the HTTP library reports for one request.
`rejected`: `http.NewRequest` returns an error (the URL does not parse), nothing is sent.
`failed`: `client.Do` returns an error (connection refused, timeout, ...).
`unread`: a response with this status arrived but `io.ReadAll` of its body fails.
`reply`: a response with this status and body. -/
inductive Outcome where
  | rejected (err : Error)
  | failed (err : Error)
  | unread (status : Int) (err : Error)
  | reply (status : Int) (body : Bytes)
  deriving DecidableEq, Repr

/-- The requests handed to `client.Do` so far, oldest first.  A request that
`http.NewRequest` rejects is not handed over and is not logged. -/
abbrev Log := List Request

/-- A value decoded by `encoding/json` into `interface{}`. -/
inductive Value where
  | null
  | bool (b : Bool)
  | number (literal : String)
  | string (s : String)
  | array (items : List Value)
  | object (fields : List (String × Value))

/-- The struct `SeverityThreshold` nested in `Project`. -/
structure SeverityThreshold where
  Level : String := ""
  deriving DecidableEq, Repr

/-- The struct `Project` of project.go, with every field; the defaults are Go zero values. -/
structure Project where
  Id : Int := 0
  Name : String := ""
  CreatedAt : String := ""
  UpdatedAt : String := ""
  AccountID : Int := 0
  APIKey : String := ""
  ResolveErrorsOnDeploy : Bool := false
  MinAppVersion : String := ""
  StrictErrorTypes : String := ""
  GlobalErrorTypes : String := ""
  ExceptionalAppID : String := ""
  SeverityThreshold : SeverityThreshold := {}
  Language : String := ""
  RetentionPeriodDays : Int := 0
  EnableOldGrouping : Bool := false
  FirstNoticeReceivedAt : String := ""
  ApdexThreshold : String := ""
  NotifierName : String := ""
  NotifierVersion : String := ""
  AnomalyNotificationEnv : List String := []
  LastDeployAt : String := ""
  ServerErrorAlertThreshold : Int := 0
  LastCommentAt : String := ""
  LastUserGroupResolvedAt : String := ""
  IsFirstProject : Bool := false
  DemoModeUntilDate : String := ""
  deriving DecidableEq, Repr

/-- The Go expression `Project{}`. -/
def Project.zero : Project := {}

/-- The struct `Response` of project.go. -/
structure Response where
  Projects : List Project := []
  deriving DecidableEq, Repr

/-- The struct `Client` of client.go. -/
structure Client where
  BaseUrl : String
  Token : String
  deriving DecidableEq, Repr

/-- Everything the client calls outside the repository.
`http log req` is the outcome of request `req` after the requests of `log`.
`jsonResponse`, `jsonProject` and `jsonObject` are `json.Unmarshal` into a zero `Response`,
a zero `Project` and a nil `map[string]interface{}` (a Go map read as a lookup function). -/
structure World where
  http : Log → Request → Outcome
  jsonResponse : Bytes → Except Error Response
  jsonProject : Bytes → Except Error Project
  jsonObject : Bytes → Except Error (String → Option Value)

/-- The Go function `strconv.Itoa`: the decimal rendering of an integer. -/
def Itoa (i : Int) : String := toString i

/-- The Go call `json.Marshal(values)` on a `map[string]string`: it has no failing input;
the body is kept as the map it encodes. -/
def jsonMarshal (values : StrMap) : Except Error StrMap := .ok values

/-- The pair every verb operation adds when the client has a token:
`if c.Token != "" { q.Add("key", c.Token) }`. -/
def Client.keyParam (c : Client) : StrMap :=
  if c.Token ≠ "" then [("key", c.Token)] else []

/-- The method `Client.Get` of client.go:55. -/
def Client.Get (w : World) (c : Client) (domain : String) (params : StrMap) (log : Log) :
    (Int × Bytes × Option Error) × Log :=
  let req : Request :=
    { method := Method.GET, url := c.BaseUrl ++ domain, query := params ++ c.keyParam,
      contentType := none, body := none }
  match w.http log req with
  | Outcome.rejected err => ((500, "", some err), log)
  | Outcome.failed err => ((404, "", some err), log ++ [req])
  | Outcome.unread _ err => ((500, "", some err), log ++ [req])
  | Outcome.reply status body => ((status, body, none), log ++ [req])

/-- The method `Client.Post` of client.go:85. -/
def Client.Post (w : World) (c : Client) (domain : String) (params : StrMap) (log : Log) :
    (Int × Bytes × Option Error) × Log :=
  let req : Request :=
    { method := Method.POST, url := c.BaseUrl ++ domain, query := params ++ c.keyParam,
      contentType := none, body := none }
  match w.http log req with
  | Outcome.rejected err => ((500, "", some err), log)
  | Outcome.failed err => ((404, "", some err), log ++ [req])
  | Outcome.unread _ err => ((500, "", some err), log ++ [req])
  | Outcome.reply status body => ((status, body, none), log ++ [req])

/-- The method `Client.Put` of client.go:115.  The body is not read: a response whose body
cannot be read still yields its status. -/
def Client.Put (w : World) (c : Client) (domain : String) (id : String) (values : StrMap)
    (log : Log) : (Int × Option Error) × Log :=
  match jsonMarshal values with
  | Except.error err => ((0, some err), log)
  | Except.ok data =>
    let req : Request :=
      { method := Method.PUT, url := c.BaseUrl ++ domain ++ "/" ++ id, query := c.keyParam,
        contentType := some "application/json", body := some data }
    match w.http log req with
    | Outcome.rejected err => ((500, some err), log)
    | Outcome.failed err => ((500, some err), log ++ [req])
    | Outcome.unread status _ => ((status, none), log ++ [req])
    | Outcome.reply status _ => ((status, none), log ++ [req])

/-- The method `Client.Delete` of client.go:145. -/
def Client.Delete (w : World) (c : Client) (domain : String) (id : String) (log : Log) :
    (Int × Option Error) × Log :=
  let req : Request :=
    { method := Method.DELETE, url := c.BaseUrl ++ domain ++ "/" ++ id, query := c.keyParam,
      contentType := none, body := none }
  match w.http log req with
  | Outcome.rejected err => ((500, some err), log)
  | Outcome.failed err => ((500, some err), log ++ [req])
  | Outcome.unread status _ => ((status, none), log ++ [req])
  | Outcome.reply status _ => ((status, none), log ++ [req])

/-- The method `Client.GetProjects` of project.go:53. -/
def Client.GetProjects (w : World) (c : Client) (log : Log) :
    (List Project × Option Error) × Log :=
  match c.Get w "projects" [] log with
  | ((status, response, err), log1) =>
    if err ≠ none ∨ status ≥ 300 then
      (([], some "error during aibrake projects listing"), log1)
    else
      match w.jsonResponse response with
      | Except.error e => (([], some ("error parsing JSON: " ++ e)), log1)
      | Except.ok responseData => ((responseData.Projects, none), log1)

/-- The loop of `GetProject`: `for _, p := range projects { if p.Name == name { return p, nil } }`;
`none` when the loop runs to its end. -/
def GetProject.scan (name : String) : List Project → Option Project
  | [] => none
  | p :: rest => if p.Name = name then some p else GetProject.scan name rest

/-- The method `Client.GetProject` of project.go:68. -/
def Client.GetProject (w : World) (c : Client) (name : String) (log : Log) :
    (Project × Option Error) × Log :=
  match c.GetProjects w log with
  | ((_, some err), log1) => ((Project.zero, some err), log1)
  | ((projects, none), log1) =>
    match GetProject.scan name projects with
    | some p => ((p, none), log1)
    | none => ((Project.zero, some ("can\x27t find project : " ++ name)), log1)

/-- The loop of `GetProjectById`: `for _, p := range projects { if p.Id == id { return p, nil } }`;
`none` when the loop runs to its end. -/
def GetProjectById.scan (id : Int) : List Project → Option Project
  | [] => none
  | p :: rest => if p.Id = id then some p else GetProjectById.scan id rest

/-- The method `Client.GetProjectById` of project.go:81; `%d` renders the id in decimal. -/
def Client.GetProjectById (w : World) (c : Client) (id : Int) (log : Log) :
    (Project × Option Error) × Log :=
  match c.GetProjects w log with
  | ((_, some err), log1) => ((Project.zero, some err), log1)
  | ((projects, none), log1) =>
    match GetProjectById.scan id projects with
    | some p => ((p, none), log1)
    | none => ((Project.zero, some ("can\x27t find project : " ++ Itoa id)), log1)

/-- The method `Client.UpdateProject` of project.go:127. -/
def Client.UpdateProject (w : World) (c : Client) (p : Project) (log : Log) :
    Option Error × Log :=
  let values : StrMap := [("language", p.Language)]
  match c.Put w "projects" (Itoa p.Id) values log with
  | ((status, err), log1) =>
    if err ≠ none ∨ status ≥ 300 then
      (some "error during aibrake project update", log1)
    else
      (none, log1)

/-- The method `Client.CreateProject` of project.go:94 (the `tflog.Debug` calls only log). -/
def Client.CreateProject (w : World) (c : Client) (p : Project) (log : Log) :
    (Project × Option Error) × Log :=
  let params : StrMap := [("name", p.Name)]
  match c.Post w "projects" params log with
  | ((status, response, err), log1) =>
    if err ≠ none ∨ status ≥ 300 then
      ((Project.zero, some "error during new aibrake project"), log1)
    else
      match w.jsonProject response with
      | Except.error e => ((Project.zero, some ("error parsing JSON: " ++ e)), log1)
      | Except.ok decoded =>
        let responseData : Project := { decoded with Language := p.Language }
        match c.UpdateProject w responseData log1 with
        | (some err, log2) => ((Project.zero, some err), log2)
        | (none, log2) => ((responseData, none), log2)

/-- The method `Client.DeleteProject` of project.go:138. -/
def Client.DeleteProject (w : World) (c : Client) (id : String) (log : Log) :
    Option Error × Log :=
  match c.Delete w "projects" id log with
  | ((status, err), log1) =>
    if err ≠ none ∨ status ≥ 300 then
      (some "error during aibrake project delete", log1)
    else
      (none, log1)

/-- The function `NewClient` of client.go:16; `none` is the nil `*Client`.
`response["token"].(string)` succeeds exactly on a present string value. -/
def NewClient (w : World) (baseUrl email password apiKey : String) (log : Log) :
    (Option Client × Option Error) × Log :=
  let client : Client := { BaseUrl := baseUrl, Token := "" }
  if apiKey ≠ "" then
    let client : Client := { client with Token := apiKey }
    match client.Get w "users/current" [] log with
    | ((_, _, some err), log1) => ((none, some err), log1)
    | ((statusCode, _, none), log1) =>
      if statusCode ≥ 300 then
        ((none, some "users/current wrong api key"), log1)
      else
        ((some client, none), log1)
  else
    let params : StrMap := [("email", email), ("password", password)]
    match client.Get w "sessions" params log with
    | ((_, _, some err), log1) => ((none, some err), log1)
    | ((statusCode, responseBody, none), log1) =>
      if statusCode ≥ 300 then
        ((none, some "sessions : wrong login/password"), log1)
      else
        match w.jsonObject responseBody with
        | Except.error err => ((none, some err), log1)
        | Except.ok response =>
          match response "token" with
          | some (Value.string token) => ((some { client with Token := token }, none), log1)
          | _ => ((none, some "token not found"), log1)

end Airbrake

namespace Provider

open Airbrake

/-- The constant `DEFAULT_AIRBRAKE_URL` of provider.go:20. -/
def DEFAULT_AIRBRAKE_URL : String := "https://api.airbrake.io/api/v4/"

/-- The variable `envAirbrakeBaseUrl` of provider.go:24. -/
def envAirbrakeBaseUrl : String := "AIRBRAKE_BASE_URL"

/-- The variable `envAirbrakeEmail` of provider.go:25. -/
def envAirbrakeEmail : String := "AIRBRAKE_EMAIL"

/-- The variable `envAirbrakePassword` of provider.go:26. -/
def envAirbrakePassword : String := "AIRBRAKE_PASSWORD"

/-- The variable `envAirbrakeApiKey` of provider.go:27. -/
def envAirbrakeApiKey : String := "AIRBRAKE_API_KEY"

/-- The framework type `types.String`: null, unknown, or a known value. -/
inductive TfString where
  | null
  | unknown
  | value (s : String)
  deriving DecidableEq, Repr

/-- The framework method `IsNull`. -/
def TfString.IsNull : TfString → Bool
  | TfString.null => true
  | _ => false

/-- The framework method `IsUnknown`. -/
def TfString.IsUnknown : TfString → Bool
  | TfString.unknown => true
  | _ => false

/-- The framework method `ValueString`: the known value, the empty string otherwise. -/
def TfString.ValueString : TfString → String
  | TfString.value s => s
  | _ => ""

/-- The struct `AirbrakeProviderModel` of provider.go:34. -/
structure AirbrakeProviderModel where
  Email : TfString
  Password : TfString
  ApiKey : TfString
  BaseUrl : TfString
  deriving DecidableEq, Repr

/-- Severity of a framework diagnostic. -/
inductive Severity where
  | error
  | warning
  deriving DecidableEq, Repr

/-- One framework diagnostic: `root` is the `path.Root` of `AddAttributeError`. -/
structure Diagnostic where
  severity : Severity
  root : Option String
  summary : String
  detail : String
  deriving DecidableEq, Repr

/-- The framework method `Diagnostics.HasError`. -/
def HasError (diags : List Diagnostic) : Bool :=
  diags.any (fun d => d.severity = Severity.error)

/-- The framework method `Diagnostics.AddAttributeError`. -/
def AddAttributeError (diags : List Diagnostic) (root summary detail : String) :
    List Diagnostic :=
  diags ++ [{ severity := Severity.error, root := some root, summary := summary,
              detail := detail }]

/-- The framework method `Diagnostics.AddError`. -/
def AddError (diags : List Diagnostic) (summary detail : String) : List Diagnostic :=
  diags ++ [{ severity := Severity.error, root := none, summary := summary,
              detail := detail }]

/-- The Go function `strings.HasSuffix`:
`len(s) >= len(suffix) && s[len(s)-len(suffix):] == suffix`, on characters. -/
def HasSuffix (s suffix : String) : Bool :=
  decide (s.data.length ≥ suffix.data.length) &&
    decide (s.data.drop (s.data.length - suffix.data.length) = suffix.data)

/-- The struct `provider.ConfigureResponse`, with the fields `Configure` writes. -/
structure ConfigureResponse where
  Diagnostics : List Diagnostic
  DataSourceData : Option Client
  ResourceData : Option Client
  deriving DecidableEq, Repr

/-- The four locals of `Configure` that become the arguments of `NewClient`. -/
structure Settings where
  baseurl : String
  email : String
  password : String
  apikey : String
  deriving DecidableEq, Repr

/-- Lines 79 to 113 of `Configure`: one attribute error for each unknown value. -/
def Configure.unknownChecks (config : AirbrakeProviderModel) (diags : List Diagnostic) :
    List Diagnostic :=
  let d1 := if config.ApiKey.IsUnknown then
      AddAttributeError diags "api_key" "Unknown Airbake API key"
        ("The provider cannot create the HashiCups API client as there is an unknown configuration value for the HashiCups API host. " ++
          "Either target apply the source of the value first, set the value statically in the configuration, or use the HASHICUPS_HOST environment variable.")
    else diags
  let d2 := if config.Email.IsUnknown then
      AddAttributeError d1 "email" "Unknown Airbrake user"
        ("The provider cannot create the HashiCups API client as there is an unknown configuration value for the HashiCups API username. " ++
          "Either target apply the source of the value first, set the value statically in the configuration, or use the HASHICUPS_USERNAME environment variable.")
    else d1
  let d3 := if config.Password.IsUnknown then
      AddAttributeError d2 "password" "Unknown Airbake password"
        ("The provider cannot create the HashiCups API client as there is an unknown configuration value for the HashiCups API password. " ++
          "Either target apply the source of the value first, set the value statically in the configuration, or use the HASHICUPS_PASSWORD environment variable.")
    else d2
  if config.BaseUrl.IsUnknown then
    AddAttributeError d3 "base_url" "Unknown Airbake base url"
      ("The provider cannot create the HashiCups API client as there is an unknown configuration value for the HashiCups API password. " ++
        "Either target apply the source of the value first, set the value statically in the configuration, or use the HASHICUPS_PASSWORD environment variable.")
  else d3

/-- Lines 119 to 141 of `Configure`: the four values read from the environment
(`getenv` is `os.Getenv`, the empty string for an unset variable), the default base URL,
then the overrides from the configuration. -/
def Configure.resolve (getenv : String → String) (config : AirbrakeProviderModel) : Settings :=
  let apikey := getenv envAirbrakeBaseUrl
  let email := getenv envAirbrakeEmail
  let password := getenv envAirbrakePassword
  let baseurl := getenv envAirbrakeApiKey
  let baseurl := if baseurl.length = 0 then DEFAULT_AIRBRAKE_URL else baseurl
  let apikey := if !config.ApiKey.IsNull then config.ApiKey.ValueString else apikey
  let email := if !config.Email.IsNull then config.Email.ValueString else email
  let password := if !config.Password.IsNull then config.Password.ValueString else password
  let baseurl := if !config.BaseUrl.IsNull then config.BaseUrl.ValueString else baseurl
  { baseurl := baseurl, email := email, password := password, apikey := apikey }

/-- Lines 153 to 155 of `Configure`: a base URL without a final slash gets one. -/
def Configure.withSlash (baseurl : String) : String :=
  if !HasSuffix baseurl "/" then baseurl ++ "/" else baseurl

/-- The method `AirbrakeProvider.Configure` of provider.go:71.  `configDiags` and `config`
are what `req.Config.Get` returns and decodes; the response starts empty. -/
def Configure (w : World) (getenv : String → String) (configDiags : List Diagnostic)
    (config : AirbrakeProviderModel) (log : Log) : ConfigureResponse × Log :=
  let diags := configDiags
  if HasError diags then
    ({ Diagnostics := diags, DataSourceData := none, ResourceData := none }, log)
  else
    let diags := Configure.unknownChecks config diags
    if HasError diags then
      ({ Diagnostics := diags, DataSourceData := none, ResourceData := none }, log)
    else
      let s := Configure.resolve getenv config
      let diags :=
        if s.apikey = "" ∧ (s.email = "" ∨ s.password = "") then
          AddAttributeError diags "api_key" "Missing Airbrake credentials"
            ("The provider cannot create the HashiCups API client as there is a missing or empty value for the HashiCups API host. " ++
              "Set the host value in the configuration or use the HASHICUPS_HOST environment variable. " ++
              "If either is already set, ensure the value is not empty.")
        else diags
      let baseurl := Configure.withSlash s.baseurl
      if HasError diags then
        ({ Diagnostics := diags, DataSourceData := none, ResourceData := none }, log)
      else
        match NewClient w baseurl s.email s.password s.apikey log with
        | ((_, some err), log1) =>
          ({ Diagnostics := AddError diags "Unable to Connect to airbake API Client"
                ("An unexpected error occurred when creating the airbrake API client. " ++
                  "If the error is not clear, please contact the provider developers.\n\n" ++
                  "Airbrake Client Error: " ++ err),
             DataSourceData := none, ResourceData := none }, log1)
        | ((client, none), log1) =>
          ({ Diagnostics := diags, DataSourceData := client, ResourceData := client }, log1)

/-! ### The resource and the data source -/

/-- The error kinds of `strconv`: `ErrSyntax` and `ErrRange`. -/
inductive NumError where
  | ErrSyntax
  | ErrRange
  deriving DecidableEq, Repr

/-- The largest `uint64`, `1<<64 - 1`. -/
def maxUint64 : Nat := 18446744073709551615

/-- The digit test of `strconv`, `'0' <= c && c <= '9'`.  A character outside ASCII fails
it, as each of its bytes does. -/
def isDigit (c : Char) : Bool := decide (48 ≤ c.toNat ∧ c.toNat ≤ 57)

/-- The value `c - '0'` of a digit. -/
def digit (c : Char) : Nat := c.toNat - 48

/-- The string after its leading sign, if it has one: `if s[0] == '-' || s[0] == '+'` then
`s[1:]`. -/
def dropSign : List Char → List Char
  | [] => []
  | c :: rest => if c = '+' ∨ c = '-' then rest else c :: rest

/-- Whether the string starts with `-`. -/
def isNeg : List Char → Bool
  | [] => false
  | c :: _ => decide (c = '-')

/-- The loop of `strconv.ParseUint(s, 10, 64)` from the value `n` read so far.  A character
that is not a digit ends it with a syntax error and 0; a digit read when `n` is at the
cutoff `maxUint64/10 + 1`, or whose addition wraps around, ends it at once with a range
error and `maxUint64`, before the characters that follow are looked at. -/
def ParseUint.loop : List Char → Nat → Nat × Option NumError
  | [], n => (n, none)
  | c :: cs, n =>
    if isDigit c then
      if n ≥ maxUint64 / 10 + 1 then (maxUint64, some NumError.ErrRange)
      else
        let n10 := n * 10 % 2 ^ 64
        let n1 := (n10 + digit c) % 2 ^ 64
        if n1 < n10 ∨ n1 > maxUint64 then (maxUint64, some NumError.ErrRange)
        else ParseUint.loop cs n1
    else (0, some NumError.ErrSyntax)

/-- The Go function `strconv.ParseUint(s, 10, 64)`. -/
def ParseUint (s : List Char) : Nat × Option NumError :=
  if s = [] then (0, some NumError.ErrSyntax) else ParseUint.loop s 0

/-- The Go function `strconv.ParseInt(s, 10, 0)` with 64-bit `int`: the sign is taken off,
a syntax error of `ParseUint` gives 0, a magnitude out of range gives the nearest bound. -/
def ParseInt (s : List Char) : Int × Option NumError :=
  if s = [] then (0, some NumError.ErrSyntax)
  else
    match ParseUint (dropSign s) with
    | (_, some NumError.ErrSyntax) => (0, some NumError.ErrSyntax)
    | (un, _) =>
      if ¬ isNeg s ∧ un ≥ 2 ^ 63 then (2 ^ 63 - 1, some NumError.ErrRange)
      else if isNeg s ∧ un > 2 ^ 63 then (-(2 ^ 63), some NumError.ErrRange)
      else (if isNeg s then -(un : Int) else (un : Int), none)

/-- The loop of the fast path of `strconv.Atoi`: `ch -= '0'; if ch > 9` is a syntax error,
else `n = n*10 + int(ch)`. -/
def Atoi.fast : List Char → Nat → Option Nat
  | [], n => some n
  | c :: cs, n => if isDigit c then Atoi.fast cs (n * 10 + digit c) else none

/-- The Go function `strconv.Atoi` with 64-bit `int`: the fast path for a string of 1 to 18
bytes, `ParseInt(s, 10, 0)` otherwise. -/
def Atoi (s : String) : Int × Option NumError :=
  if 0 < s.utf8ByteSize ∧ s.utf8ByteSize < 19 then
    if (dropSign s.data).length < 1 then (0, some NumError.ErrSyntax)
    else
      match Atoi.fast (dropSign s.data) 0 with
      | none => (0, some NumError.ErrSyntax)
      | some n => (if isNeg s.data then -(n : Int) else (n : Int), none)
  else ParseInt s.data

/-- The struct `ProjectResourceModel` of project_resource.go:34. -/
structure ProjectResourceModel where
  Name : TfString
  Id : TfString
  ApiKey : TfString
  Language : TfString
  deriving DecidableEq, Repr

/-- The struct `ProjectDataSourceModel` of project_data_source.go:27; also the shape of the
state of both the resource and the data source (attributes name, id, api_key, language). -/
structure ProjectDataSourceModel where
  Name : TfString
  Id : TfString
  ApiKey : TfString
  Language : TfString
  deriving DecidableEq, Repr

/-- The method `convertToProject` of project_resource.go:41: the error of `Atoi` is dropped. -/
def ProjectResourceModel.convertToProject (p : ProjectResourceModel) : Project :=
  let id := (Atoi p.Id.ValueString).1
  { Id := id, Name := p.Name.ValueString, APIKey := p.ApiKey.ValueString,
    Language := p.Language.ValueString }

/-- The state object a `ProjectResourceModel` is stored as. -/
def ProjectResourceModel.asState (p : ProjectResourceModel) : ProjectDataSourceModel :=
  { Name := p.Name, Id := p.Id, ApiKey := p.ApiKey, Language := p.Language }

/-- The framework method `Diagnostics.Append`: a diagnostic is added unless an equal one is
already in the collection. -/
def Append (diags more : List Diagnostic) : List Diagnostic :=
  more.foldl (fun acc d => if d ∈ acc then acc else acc ++ [d]) diags

/-- What a lifecycle hook leaves in its response: the diagnostics, and the state the hook
stored with `resp.State.Set`, `none` when it stored none. -/
structure HookResponse where
  Diagnostics : List Diagnostic
  State : Option ProjectDataSourceModel
  deriving DecidableEq, Repr

/-- The statement `resp.Diagnostics.Append(resp.State.Set(ctx, &data)...)`; `set data` are
the diagnostics `State.Set` returns, and it stores `data` unless they hold an error. -/
def StateSet (set : ProjectDataSourceModel → List Diagnostic) (resp : HookResponse)
    (data : ProjectDataSourceModel) : HookResponse :=
  { Diagnostics := Append resp.Diagnostics (set data),
    State := if HasError (set data) then resp.State else some data }

/-- The state built from a project in `Create` and in both `Read` hooks. -/
def projectState (project : Project) : ProjectDataSourceModel :=
  { Name := TfString.value project.Name, Id := TfString.value (Itoa project.Id),
    ApiKey := TfString.value project.APIKey, Language := TfString.value project.Language }

/-- The method `ProjectResource.Create` of project_resource.go:84.  `planDiags` and
`projectInput` are what `req.Plan.Get` returns and decodes; `client` is `r.client`. -/
def ProjectResource.Create (w : World) (set : ProjectDataSourceModel → List Diagnostic)
    (client : Client) (planDiags : List Diagnostic) (projectInput : ProjectResourceModel)
    (log : Log) : HookResponse × Log :=
  let diags := Append [] planDiags
  if HasError diags then
    ({ Diagnostics := diags, State := none }, log)
  else
    match client.CreateProject w projectInput.convertToProject log with
    | ((_, some err), log1) =>
      ({ Diagnostics := AddError diags "Error creating project"
            ("Could not create project, unexpected error: " ++ err),
         State := none }, log1)
    | ((project, none), log1) =>
      (StateSet set { Diagnostics := diags, State := none } (projectState project), log1)

/-- The method `ProjectResource.Read` of project_resource.go:123.  `stateDiags` and `state`
are what `req.State.Get` returns and decodes. -/
def ProjectResource.Read (w : World) (set : ProjectDataSourceModel → List Diagnostic)
    (client : Client) (stateDiags : List Diagnostic) (state : ProjectResourceModel)
    (log : Log) : HookResponse × Log :=
  let diags := Append [] stateDiags
  if HasError diags then
    ({ Diagnostics := diags, State := none }, log)
  else
    let id := (Atoi state.Id.ValueString).1
    match client.GetProjectById w id log with
    | ((_, some err), log1) =>
      ({ Diagnostics := AddError diags "Error Reading Airbrake Project"
            ("Could not read Airbrake Project " ++ state.Name.ValueString ++ ": " ++ err),
         State := none }, log1)
    | ((project, none), log1) =>
      (StateSet set { Diagnostics := diags, State := none } (projectState project), log1)

/-- The method `ProjectResource.Update` of project_resource.go:157. -/
def ProjectResource.Update (w : World) (set : ProjectDataSourceModel → List Diagnostic)
    (client : Client) (planDiags : List Diagnostic) (projectInput : ProjectResourceModel)
    (log : Log) : HookResponse × Log :=
  let diags := Append [] planDiags
  if HasError diags then
    ({ Diagnostics := diags, State := none }, log)
  else
    match client.UpdateProject w projectInput.convertToProject log with
    | (some err, log1) =>
      ({ Diagnostics := AddError diags "Error Updating Airbrake project"
            ("Could not update project, unexpected error: " ++ err),
         State := none }, log1)
    | (none, log1) =>
      (StateSet set { Diagnostics := diags, State := none } projectInput.asState, log1)

/-- The method `ProjectDataSource.Read` of project_data_source.go:58.  `client` is
`d.client`, `none` when nil; `configDiags` and `data` are what `req.Config.Get` returns and
decodes.  After the error of `GetProject` is recorded the method goes on. -/
def ProjectDataSource.Read (w : World) (set : ProjectDataSourceModel → List Diagnostic)
    (client : Option Client) (configDiags : List Diagnostic) (data : ProjectDataSourceModel)
    (log : Log) : HookResponse × Log :=
  match client with
  | none =>
    ({ Diagnostics := AddError [] "Unconfigured Airbrake connexion"
          "Expected configured Airbrake connexion. Please report this issue to the provider developers.",
       State := none }, log)
  | some c =>
    let diags := Append [] configDiags
    if HasError diags then
      ({ Diagnostics := diags, State := none }, log)
    else
      match c.GetProject w data.Name.ValueString log with
      | ((project, err), log1) =>
        let diags :=
          match err with
          | some e => AddError diags "Unable to fetch project" e
          | none => diags
        (StateSet set { Diagnostics := diags, State := none } (projectState project), log1)

end Provider

/-! ## A concrete remote, for evaluating the operations -/

namespace Demo

open Airbrake

/-- The base URL of the demo remote. -/
def base : String := "https://api.airbrake.io/api/v4/"

/-- A remote given by a routing table on method and URL; a request with no route fails in
the transport. -/
def routes (table : List ((Method × String) × Outcome)) : Log → Request → Outcome :=
  fun _ req => (table.lookup (req.method, req.url)).getD (Outcome.failed "connection refused")

/-- The body of the demo listing. -/
def listingBody : Bytes :=
  "\x7b\x22projects\x22:[\x7b\x22id\x22:7,\x22name\x22:\x22Foo\x22\x7d,\x7b\x22id\x22:42,\x22name\x22:\x22foo\x22\x7d,\x7b\x22id\x22:42,\x22name\x22:\x22foo\x22\x7d]\x7d"

/-- The body the demo remote answers to a creation. -/
def createdBody : Bytes := "\x7b\x22id\x22:42,\x22name\x22:\x22foo\x22\x7d"

/-- The body the demo remote answers to a login. -/
def sessionBody : Bytes := "\x7b\x22token\x22:\x22t0k3n\x22\x7d"

/-- First project of the demo listing: the name differs from "foo" by case only. -/
def p1 : Project := { Id := 7, Name := "Foo", Language := "go" }

/-- Second project of the demo listing. -/
def p2 : Project := { Id := 42, Name := "foo", APIKey := "k42", Language := "ruby" }

/-- Third project of the demo listing: same name and id as the second. -/
def p3 : Project := { Id := 42, Name := "foo", APIKey := "other", Language := "js" }

/-- The demo world: every route answers with success, except that `putOutcome` is the
outcome of the PUT to `projects/42`. -/
def world (putOutcome : Outcome) : World where
  http := routes
    [((Method.GET, base ++ "projects"), Outcome.reply 200 listingBody),
     ((Method.GET, base ++ "users/current"), Outcome.reply 200 ""),
     ((Method.GET, base ++ "sessions"), Outcome.reply 200 sessionBody),
     ((Method.POST, base ++ "projects"), Outcome.reply 201 createdBody),
     ((Method.PUT, base ++ "projects/42"), putOutcome),
     ((Method.DELETE, base ++ "projects/42"), Outcome.reply 204 "")]
  jsonResponse := fun b =>
    if b = listingBody then Except.ok { Projects := [p1, p2, p3] }
    else Except.error "unexpected end of JSON input"
  jsonProject := fun b =>
    if b = createdBody then Except.ok { Id := 42, Name := "foo" }
    else Except.error "unexpected end of JSON input"
  jsonObject := fun b =>
    if b = sessionBody then
      Except.ok (fun k => if k = "token" then some (Value.string "t0k3n") else none)
    else Except.error "unexpected end of JSON input"

/-- A client of the demo remote, authenticated by key. -/
def client : Client := { BaseUrl := base, Token := "secret" }

/-- The GET that lists the projects, as `client` builds it. -/
def listRequest : Request :=
  { method := Method.GET, url := base ++ "projects", query := [("key", "secret")],
    contentType := none, body := none }

/-- The POST that creates project "foo", as `client` builds it. -/
def createRequest : Request :=
  { method := Method.POST, url := base ++ "projects",
    query := [("name", "foo"), ("key", "secret")], contentType := none, body := none }

/-- The PUT that sets the language of project 42 to ruby, as `client` builds it. -/
def updateRequest : Request :=
  { method := Method.PUT, url := base ++ "projects/42", query := [("key", "secret")],
    contentType := some "application/json", body := some [("language", "ruby")] }

/-- The DELETE of project 42, as `client` builds it. -/
def deleteRequest : Request :=
  { method := Method.DELETE, url := base ++ "projects/42", query := [("key", "secret")],
    contentType := none, body := none }

/-- The desired project of the creation example. -/
def desired : Project := { Name := "foo", Language := "ruby" }

/-- The GET that validates the key "secret", as `NewClient` builds it. -/
def keyRequest : Request :=
  { method := Method.GET, url := base ++ "users/current", query := [("key", "secret")],
    contentType := none, body := none }

/-- The login GET for the demo account, as `NewClient` builds it. -/
def loginRequest : Request :=
  { method := Method.GET, url := base ++ "sessions",
    query := [("email", "dev@example.com"), ("password", "hunter2")],
    contentType := none, body := none }

/-- A local server that answers 200 with an empty body on every path. -/
def lenient : World where
  http := fun _ _ => Outcome.reply 200 ""
  jsonResponse := fun _ => Except.error "unexpected end of JSON input"
  jsonProject := fun _ => Except.error "unexpected end of JSON input"
  jsonObject := fun _ => Except.error "unexpected end of JSON input"

/-- An environment where only the API key, the email and the password are set, each in
its own variable; `AIRBRAKE_BASE_URL` is unset. -/
def getenv (name : String) : String :=
  if name = "AIRBRAKE_API_KEY" then "secret"
  else if name = "AIRBRAKE_EMAIL" then "dev@example.com"
  else if name = "AIRBRAKE_PASSWORD" then "hunter2"
  else ""

/-- A provider configuration with no attribute set. -/
def emptyConfig : Provider.AirbrakeProviderModel :=
  { Email := Provider.TfString.null, Password := Provider.TfString.null,
    ApiKey := Provider.TfString.null, BaseUrl := Provider.TfString.null }

/-- A framework whose `State.Set` stores every value without a diagnostic. -/
def stored (_ : Provider.ProjectDataSourceModel) : List Provider.Diagnostic := []

/-- The configuration of a data source that looks for a project named "nope". -/
def nopeConfig : Provider.ProjectDataSourceModel :=
  { Name := Provider.TfString.value "nope", Id := Provider.TfString.null,
    ApiKey := Provider.TfString.null, Language := Provider.TfString.null }

/-- A third demo world, where `http.NewRequest` rejects three URLs that do not parse: an
id with a bad percent escape, and two URLs on the base URL of `brokenClient`. -/
def rejecting : World where
  http := routes
    [((Method.DELETE, base ++ "projects/%zz"), Outcome.rejected "invalid URL escape %zz"),
     ((Method.PUT, "http://[::1projects/42"), Outcome.rejected "missing ] in host"),
     ((Method.GET, "http://[::1users/current"), Outcome.rejected "missing ] in host")]
  jsonResponse := fun _ => Except.error "unexpected end of JSON input"
  jsonProject := fun _ => Except.error "unexpected end of JSON input"
  jsonObject := fun _ => Except.error "unexpected end of JSON input"

end Demo

namespace Airbrake

/-! ## Resolution by name and by id -/

theorem GetProject_scan_first (name : String) (pre : List Project) (p : Project)
    (post : List Project) (hp : p.Name = name) (hpre : ∀ q ∈ pre, q.Name ≠ name) :
    GetProject.scan name (pre ++ p :: post) = some p := by
  induction pre with
  | nil => simp [GetProject.scan, hp]
  | cons q qs ih =>
    have hq : q.Name ≠ name := hpre q (List.mem_cons_self q qs)
    have hqs : ∀ r ∈ qs, r.Name ≠ name := fun r hr => hpre r (List.mem_cons_of_mem q hr)
    simp [GetProject.scan, hq, ih hqs]

theorem GetProject_scan_some (name : String) (ps : List Project) (p : Project)
    (h : GetProject.scan name ps = some p) :
    ∃ pre post, ps = pre ++ p :: post ∧ p.Name = name ∧ ∀ q ∈ pre, q.Name ≠ name := by
  induction ps with
  | nil => simp [GetProject.scan] at h
  | cons q qs ih =>
    by_cases hq : q.Name = name
    · simp [GetProject.scan, hq] at h
      subst h
      exact ⟨[], qs, rfl, hq, by simp⟩
    · simp [GetProject.scan, hq] at h
      obtain ⟨pre, post, hsplit, hp, hpre⟩ := ih h
      refine ⟨q :: pre, post, by simp [hsplit], hp, ?_⟩
      intro r hr
      rcases List.mem_cons.mp hr with hr | hr
      · exact hr ▸ hq
      · exact hpre r hr

theorem GetProject_scan_none (name : String) (ps : List Project) :
    GetProject.scan name ps = none ↔ ∀ q ∈ ps, q.Name ≠ name := by
  induction ps with
  | nil => simp [GetProject.scan]
  | cons q qs ih =>
    by_cases hq : q.Name = name
    · simp [GetProject.scan, hq]
    · simp [GetProject.scan, hq, ih]

theorem GetProjectById_scan_first (id : Int) (pre : List Project) (p : Project)
    (post : List Project) (hp : p.Id = id) (hpre : ∀ q ∈ pre, q.Id ≠ id) :
    GetProjectById.scan id (pre ++ p :: post) = some p := by
  induction pre with
  | nil => simp [GetProjectById.scan, hp]
  | cons q qs ih =>
    have hq : q.Id ≠ id := hpre q (List.mem_cons_self q qs)
    have hqs : ∀ r ∈ qs, r.Id ≠ id := fun r hr => hpre r (List.mem_cons_of_mem q hr)
    simp [GetProjectById.scan, hq, ih hqs]

theorem GetProjectById_scan_some (id : Int) (ps : List Project) (p : Project)
    (h : GetProjectById.scan id ps = some p) :
    ∃ pre post, ps = pre ++ p :: post ∧ p.Id = id ∧ ∀ q ∈ pre, q.Id ≠ id := by
  induction ps with
  | nil => simp [GetProjectById.scan] at h
  | cons q qs ih =>
    by_cases hq : q.Id = id
    · simp [GetProjectById.scan, hq] at h
      subst h
      exact ⟨[], qs, rfl, hq, by simp⟩
    · simp [GetProjectById.scan, hq] at h
      obtain ⟨pre, post, hsplit, hp, hpre⟩ := ih h
      refine ⟨q :: pre, post, by simp [hsplit], hp, ?_⟩
      intro r hr
      rcases List.mem_cons.mp hr with hr | hr
      · exact hr ▸ hq
      · exact hpre r hr

theorem GetProjectById_scan_none (id : Int) (ps : List Project) :
    GetProjectById.scan id ps = none ↔ ∀ q ∈ ps, q.Id ≠ id := by
  induction ps with
  | nil => simp [GetProjectById.scan]
  | cons q qs ih =>
    by_cases hq : q.Id = id
    · simp [GetProjectById.scan, hq]
    · simp [GetProjectById.scan, hq, ih]

/-- C1: when `GetProjects` returns the listing `projects`, `GetProject name` returns the
first project of the listing whose `Name` is exactly `name` (every project before it has a
different name) with a nil error, whichever way the listing is split around a first match;
and it returns the zero `Project` with the error naming `name` if and only if no project of
the listing has that name.  (String equality is case-sensitive.) -/
theorem GetProject_first_match (w : World) (c : Client) (name : String) (log log1 : Log)
    (projects : List Project) (h : c.GetProjects w log = ((projects, none), log1)) :
    (∀ pre p post, projects = pre ++ p :: post → p.Name = name →
        (∀ q ∈ pre, q.Name ≠ name) → c.GetProject w name log = ((p, none), log1)) ∧
    ((∃ p ∈ projects, p.Name = name) →
        ∃ pre p post, projects = pre ++ p :: post ∧ p.Name = name ∧
          (∀ q ∈ pre, q.Name ≠ name) ∧ c.GetProject w name log = ((p, none), log1)) ∧
    (c.GetProject w name log
        = ((Project.zero, some ("can\x27t find project : " ++ name)), log1)
      ↔ ∀ q ∈ projects, q.Name ≠ name) ∧
    ((c.GetProject w name log).1.2 ≠ none ↔ ∀ q ∈ projects, q.Name ≠ name) := by
  have first : ∀ pre p post, projects = pre ++ p :: post → p.Name = name →
      (∀ q ∈ pre, q.Name ≠ name) → c.GetProject w name log = ((p, none), log1) := by
    intro pre p post hsplit hp hpre
    simp [Client.GetProject, h, hsplit, GetProject_scan_first name pre p post hp hpre]
  refine ⟨first, ?_, ?_, ?_⟩
  · rintro ⟨p, hmem, hp⟩
    cases hscan : GetProject.scan name projects with
    | none => exact absurd hp ((GetProject_scan_none name projects).mp hscan p hmem)
    | some r =>
      obtain ⟨pre, post, hsplit, hr, hpre⟩ := GetProject_scan_some name projects r hscan
      exact ⟨pre, r, post, hsplit, hr, hpre, first pre r post hsplit hr hpre⟩
  · cases hscan : GetProject.scan name projects with
    | none =>
      have hall := (GetProject_scan_none name projects).mp hscan
      simp only [Client.GetProject, h, hscan]
      simpa using hall
    | some r =>
      obtain ⟨pre, post, hsplit, hr, hpre⟩ := GetProject_scan_some name projects r hscan
      have hmem : r ∈ projects := by simp [hsplit]
      simp only [Client.GetProject, h, hscan]
      constructor
      · intro heq
        simp at heq
      · intro hall
        exact absurd hr (hall r hmem)
  · cases hscan : GetProject.scan name projects with
    | none =>
      have hall := (GetProject_scan_none name projects).mp hscan
      simp only [Client.GetProject, h, hscan]
      simpa using hall
    | some r =>
      obtain ⟨pre, post, hsplit, hr, hpre⟩ := GetProject_scan_some name projects r hscan
      have hmem : r ∈ projects := by simp [hsplit]
      simp only [Client.GetProject, h, hscan]
      constructor
      · intro heq
        simp at heq
      · intro hall
        exact absurd hr (hall r hmem)

/-- Witness of C1 on the demo listing: "foo" resolves to the second project, not to "Foo". -/
theorem GetProject_first_match_witness :
    Demo.client.GetProjects (Demo.world (Outcome.reply 204 "")) []
        = (([Demo.p1, Demo.p2, Demo.p3], none), [Demo.listRequest]) ∧
    Demo.client.GetProject (Demo.world (Outcome.reply 204 "")) "foo" []
        = ((Demo.p2, none), [Demo.listRequest]) :=
  ⟨by decide,
   (GetProject_first_match (Demo.world (Outcome.reply 204 "")) Demo.client "foo" []
      [Demo.listRequest] [Demo.p1, Demo.p2, Demo.p3] (by decide)).1
      [Demo.p1] Demo.p2 [Demo.p3] rfl rfl (by decide)⟩

/-- C2: when `GetProjects` returns the listing `projects`, `GetProjectById id` returns the
first project of the listing whose `Id` equals `id` (every project before it has another
id) with a nil error; and it returns the zero `Project` with the error naming the decimal
rendering of `id` if and only if no project of the listing has that id. -/
theorem GetProjectById_first_match (w : World) (c : Client) (id : Int) (log log1 : Log)
    (projects : List Project) (h : c.GetProjects w log = ((projects, none), log1)) :
    (∀ pre p post, projects = pre ++ p :: post → p.Id = id →
        (∀ q ∈ pre, q.Id ≠ id) → c.GetProjectById w id log = ((p, none), log1)) ∧
    ((∃ p ∈ projects, p.Id = id) →
        ∃ pre p post, projects = pre ++ p :: post ∧ p.Id = id ∧
          (∀ q ∈ pre, q.Id ≠ id) ∧ c.GetProjectById w id log = ((p, none), log1)) ∧
    (c.GetProjectById w id log
        = ((Project.zero, some ("can\x27t find project : " ++ Itoa id)), log1)
      ↔ ∀ q ∈ projects, q.Id ≠ id) ∧
    ((c.GetProjectById w id log).1.2 ≠ none ↔ ∀ q ∈ projects, q.Id ≠ id) := by
  have first : ∀ pre p post, projects = pre ++ p :: post → p.Id = id →
      (∀ q ∈ pre, q.Id ≠ id) → c.GetProjectById w id log = ((p, none), log1) := by
    intro pre p post hsplit hp hpre
    simp [Client.GetProjectById, h, hsplit, GetProjectById_scan_first id pre p post hp hpre]
  refine ⟨first, ?_, ?_, ?_⟩
  · rintro ⟨p, hmem, hp⟩
    cases hscan : GetProjectById.scan id projects with
    | none => exact absurd hp ((GetProjectById_scan_none id projects).mp hscan p hmem)
    | some r =>
      obtain ⟨pre, post, hsplit, hr, hpre⟩ := GetProjectById_scan_some id projects r hscan
      exact ⟨pre, r, post, hsplit, hr, hpre, first pre r post hsplit hr hpre⟩
  · cases hscan : GetProjectById.scan id projects with
    | none =>
      have hall := (GetProjectById_scan_none id projects).mp hscan
      simp only [Client.GetProjectById, h, hscan]
      simpa using hall
    | some r =>
      obtain ⟨pre, post, hsplit, hr, hpre⟩ := GetProjectById_scan_some id projects r hscan
      have hmem : r ∈ projects := by simp [hsplit]
      simp only [Client.GetProjectById, h, hscan]
      constructor
      · intro heq
        simp at heq
      · intro hall
        exact absurd hr (hall r hmem)
  · cases hscan : GetProjectById.scan id projects with
    | none =>
      have hall := (GetProjectById_scan_none id projects).mp hscan
      simp only [Client.GetProjectById, h, hscan]
      simpa using hall
    | some r =>
      obtain ⟨pre, post, hsplit, hr, hpre⟩ := GetProjectById_scan_some id projects r hscan
      have hmem : r ∈ projects := by simp [hsplit]
      simp only [Client.GetProjectById, h, hscan]
      constructor
      · intro heq
        simp at heq
      · intro hall
        exact absurd hr (hall r hmem)

/-- Witness of C2 on the demo listing: id 8 is not listed, the error names "8". -/
theorem GetProjectById_first_match_witness :
    Demo.client.GetProjects (Demo.world (Outcome.reply 204 "")) []
        = (([Demo.p1, Demo.p2, Demo.p3], none), [Demo.listRequest]) ∧
    Demo.client.GetProjectById (Demo.world (Outcome.reply 204 "")) 8 []
        = ((Project.zero, some "can\x27t find project : 8"), [Demo.listRequest]) :=
  ⟨by decide,
   (GetProjectById_first_match (Demo.world (Outcome.reply 204 "")) Demo.client 8 []
      [Demo.listRequest] [Demo.p1, Demo.p2, Demo.p3] (by decide)).2.2.1.mpr (by decide)⟩

/-! ## Create, update, delete -/

/-- C3: if the POST of `CreateProject d` returns a status below 300 without error and a body
that decodes to the project `r`, and the PUT that follows (to `projects/{r.Id}`, with the
language of `d`) returns a status below 300 without error, then `CreateProject d` returns,
with a nil error, `r` with its `Language` replaced by `d.Language`: the `Id`, `Name` and
`APIKey` of the result are those of `r`. -/
theorem CreateProject_returns_remote_with_language (w : World) (c : Client) (d r : Project)
    (log log1 log2 : Log) (status status2 : Int) (body : Bytes)
    (hpost : c.Post w "projects" [("name", d.Name)] log = ((status, body, none), log1))
    (hstatus : status < 300)
    (hdecode : w.jsonProject body = Except.ok r)
    (hput : c.Put w "projects" (Itoa r.Id) [("language", d.Language)] log1
        = ((status2, none), log2))
    (hstatus2 : status2 < 300) :
    ∃ p, c.CreateProject w d log = ((p, none), log2) ∧
      p = { r with Language := d.Language } ∧
      p.Id = r.Id ∧ p.Name = r.Name ∧ p.APIKey = r.APIKey ∧ p.Language = d.Language := by
  refine ⟨{ r with Language := d.Language }, ?_, rfl, rfl, rfl, rfl, rfl⟩
  have h1 : ¬ status ≥ 300 := not_le.mpr hstatus
  have h2 : ¬ status2 ≥ 300 := not_le.mpr hstatus2
  simp [Client.CreateProject, Client.UpdateProject, hpost, hdecode, hput, h1, h2]

/-- Witness of C3: desired name "foo" and language "ruby", the remote echoes id 42 and name
"foo" and accepts the update; the result has id 42, name "foo", language "ruby". -/
theorem CreateProject_returns_remote_with_language_witness :
    Demo.client.CreateProject (Demo.world (Outcome.reply 204 "")) Demo.desired []
      = (({ Id := 42, Name := "foo", Language := "ruby" }, none),
         [Demo.createRequest, Demo.updateRequest]) := by
  obtain ⟨p, hp, hq, -⟩ :=
    CreateProject_returns_remote_with_language (Demo.world (Outcome.reply 204 "")) Demo.client
      Demo.desired { Id := 42, Name := "foo" } [] [Demo.createRequest]
      [Demo.createRequest, Demo.updateRequest] 201 204 Demo.createdBody
      (by decide) (by decide) rfl (by decide) (by decide)
  rw [hp, hq]
  rfl

/-- C4: if the POST of `CreateProject d` succeeds and its body decodes to `r`, but the PUT
that follows returns an error or a status of 300 or more, then `CreateProject d` returns an
error together with the zero `Project`: no field of `r` reaches the caller. -/
theorem CreateProject_update_fails (w : World) (c : Client) (d r : Project)
    (log log1 log2 : Log) (status status2 : Int) (body : Bytes) (err2 : Option Error)
    (hpost : c.Post w "projects" [("name", d.Name)] log = ((status, body, none), log1))
    (hstatus : status < 300)
    (hdecode : w.jsonProject body = Except.ok r)
    (hput : c.Put w "projects" (Itoa r.Id) [("language", d.Language)] log1
        = ((status2, err2), log2))
    (hfail : err2 ≠ none ∨ status2 ≥ 300) :
    c.CreateProject w d log
      = ((Project.zero, some "error during aibrake project update"), log2) := by
  have h1 : ¬ status ≥ 300 := not_le.mpr hstatus
  simp only [Client.CreateProject, Client.UpdateProject, hpost, hdecode, hput]
  simp [h1, hfail]

/-- Witness of C4: the remote answers 500 to the PUT on `projects/42`. -/
theorem CreateProject_update_fails_witness :
    Demo.client.CreateProject (Demo.world (Outcome.reply 500 "")) Demo.desired []
      = ((Project.zero, some "error during aibrake project update"),
         [Demo.createRequest, Demo.updateRequest]) :=
  CreateProject_update_fails (Demo.world (Outcome.reply 500 "")) Demo.client
    Demo.desired { Id := 42, Name := "foo" } [] [Demo.createRequest]
    [Demo.createRequest, Demo.updateRequest] 201 500 Demo.createdBody none
    (by decide) (by decide) rfl (by decide) (by decide)

/-- C6, refuted as stated: the id "%zz" makes a URL that `http.NewRequest` rejects;
`DeleteProject` then sends no DELETE at all and returns its error. -/
theorem DeleteProject_rejected_id_sends_nothing :
    Demo.client.DeleteProject Demo.rejecting "%zz" []
      = (some "error during aibrake project delete", []) := by
  decide

/-- C6, amended: `DeleteProject id` hands at most one request to the transport and makes no
other call.  Unless `http.NewRequest` rejects the URL, it is exactly one DELETE whose URL
is the base URL followed by `projects/` and `id`; when the URL is rejected nothing is sent
and `DeleteProject` returns its error.  It returns a nil error if and only if a response
arrived with a status below 300. -/
theorem DeleteProject_single_request (w : World) (c : Client) (id : String) (log : Log) :
    let req : Request :=
      { method := Method.DELETE, url := c.BaseUrl ++ ("projects/" ++ id),
        query := c.keyParam, contentType := none, body := none }
    ((∀ err, w.http log req ≠ Outcome.rejected err) →
      (c.DeleteProject w id log).2 = log ++ [req]) ∧
    (∀ err, w.http log req = Outcome.rejected err →
      c.DeleteProject w id log = (some "error during aibrake project delete", log)) ∧
    ((c.DeleteProject w id log).1 = none ↔
      ∃ status, status < 300 ∧
        ((∃ body, w.http log req = Outcome.reply status body) ∨
         (∃ err, w.http log req = Outcome.unread status err))) := by
  intro req
  have hurl : c.BaseUrl ++ "projects" ++ "/" ++ id = c.BaseUrl ++ ("projects/" ++ id) := by
    apply String.ext
    simp [String.data_append]
  refine ⟨?_, ?_, ?_⟩
  · intro hsent
    simp only [Client.DeleteProject, Client.Delete, hurl]
    cases hout : w.http log req with
    | rejected err => exact absurd hout (hsent err)
    | failed err => split <;> rfl
    | unread status err => split <;> rfl
    | reply status body => split <;> rfl
  · intro err hout
    simp only [Client.DeleteProject, Client.Delete, hurl]
    rw [hout]
    simp
  · simp only [Client.DeleteProject, Client.Delete, hurl]
    cases hout : w.http log req with
    | rejected err => simp
    | failed err => simp
    | unread status err =>
      by_cases hs : status ≥ 300
      · simp [hs]
      · simp [hs, not_le.mp hs]
    | reply status body =>
      by_cases hs : status ≥ 300
      · simp [hs]
      · simp [hs, not_le.mp hs]

/-- Witness of amended C6: on the demo remote the URL is accepted and deleting project 42
sends the one DELETE. -/
theorem DeleteProject_single_request_witness :
    (Demo.client.DeleteProject (Demo.world (Outcome.reply 204 "")) "42" []).2
      = [Demo.deleteRequest] := by
  have hreply : (Demo.world (Outcome.reply 204 "")).http [] Demo.deleteRequest
      = Outcome.reply 204 "" := by
    decide
  exact (DeleteProject_single_request (Demo.world (Outcome.reply 204 "")) Demo.client
    "42" []).1 (fun err hrej => Outcome.noConfusion (hreply.symm.trans hrej))

/-- On the demo remote, updating the second listed project sends the one PUT with the
language alone, although the project also has a name and an API key. -/
theorem UpdateProject_demo :
    Demo.client.UpdateProject (Demo.world (Outcome.reply 204 "")) Demo.p2 []
      = (none, [Demo.updateRequest]) := by
  decide

/-- On the demo remote, deleting project 42 succeeds after the one DELETE, and deleting the
unknown project 43 fails after its one DELETE. -/
theorem DeleteProject_demo :
    Demo.client.DeleteProject (Demo.world (Outcome.reply 204 "")) "42" []
      = (none, [Demo.deleteRequest]) ∧
    (Demo.client.DeleteProject (Demo.world (Outcome.reply 204 "")) "43" []).1
      = some "error during aibrake project delete" := by
  constructor <;> decide

/-! ## Session establishment -/

/-- C7, refuted as stated: with the non-empty key "secret" and a base URL that
`http.NewRequest` rejects, `NewClient` issues no GET at all and fails. -/
theorem NewClient_rejected_url_sends_nothing :
    NewClient Demo.rejecting "http://[::1" "" "" "secret" []
      = ((none, some "missing ] in host"), []) := by
  decide

/-- C7, amended: with a non-empty `apiKey`, whatever `email` and `password` are, `NewClient`
takes the key path only: the one request it hands to the transport, unless
`http.NewRequest` rejects the URL, is the GET to `users/current` carrying `key = apiKey`,
which is not the login request to `sessions`; when the URL is rejected nothing is sent.
When the request is answered with a status below 300 it returns the client with
`Token = apiKey` and the given base URL and a nil error; when the status is 300 or more,
or the request fails (URL rejected, transport error, unreadable body), it returns an error
and the nil client. -/
theorem NewClient_apiKey_path (w : World) (baseUrl email password apiKey : String) (log : Log)
    (hkey : apiKey ≠ "") :
    let req : Request :=
      { method := Method.GET, url := baseUrl ++ "users/current", query := [("key", apiKey)],
        contentType := none, body := none }
    ((∀ err, w.http log req ≠ Outcome.rejected err) →
      (NewClient w baseUrl email password apiKey log).2 = log ++ [req]) ∧
    (∀ err, w.http log req = Outcome.rejected err →
      NewClient w baseUrl email password apiKey log = ((none, some err), log)) ∧
    req.url ≠ baseUrl ++ "sessions" ∧
    (∀ status body, w.http log req = Outcome.reply status body → status < 300 →
      (NewClient w baseUrl email password apiKey log).1
        = (some { BaseUrl := baseUrl, Token := apiKey }, none)) ∧
    (∀ status body, w.http log req = Outcome.reply status body → status ≥ 300 →
      (NewClient w baseUrl email password apiKey log).1
        = (none, some "users/current wrong api key")) ∧
    (∀ err, (w.http log req = Outcome.rejected err ∨ w.http log req = Outcome.failed err ∨
        ∃ status, w.http log req = Outcome.unread status err) →
      (NewClient w baseUrl email password apiKey log).1 = (none, some err)) := by
  intro req
  have hq : ([] : StrMap) ++ Client.keyParam { BaseUrl := baseUrl, Token := apiKey }
      = [("key", apiKey)] := by
    simp [Client.keyParam, hkey]
  have hne : req.url ≠ baseUrl ++ "sessions" := by
    intro h
    have hd := congrArg String.data h
    simp [req, String.data_append] at hd
  refine ⟨?_, ?_, hne, ?_, ?_, ?_⟩
  · intro hsent
    simp only [NewClient, if_pos hkey, Client.Get, hq]
    cases hout : w.http log req with
    | rejected err => exact absurd hout (hsent err)
    | failed err => rfl
    | unread status err => rfl
    | reply status body =>
      simp only
      split <;> rfl
  · intro err hout
    simp only [NewClient, if_pos hkey, Client.Get, hq]
    rw [hout]
  · intro status body hreply hstatus
    have hs : ¬ status ≥ 300 := not_le.mpr hstatus
    simp only [NewClient, if_pos hkey, Client.Get, hq]
    rw [hreply]
    simp [hs]
  · intro status body hreply hstatus
    simp only [NewClient, if_pos hkey, Client.Get, hq]
    rw [hreply]
    simp [hstatus]
  · intro err hfail
    simp only [NewClient, if_pos hkey, Client.Get, hq]
    rcases hfail with h | h | ⟨status, h⟩ <;> rw [h]

/-- Witness of amended C7: key "secret" (with an email and a password given as well)
against the demo remote yields the client holding that key after the single GET to
`users/current`. -/
theorem NewClient_apiKey_path_witness :
    NewClient (Demo.world (Outcome.reply 204 "")) Demo.base "dev@example.com" "hunter2"
        "secret" []
      = ((some Demo.client, none), [Demo.keyRequest]) := by
  have h := NewClient_apiKey_path (Demo.world (Outcome.reply 204 "")) Demo.base
    "dev@example.com" "hunter2" "secret" [] (by decide)
  have hreply : (Demo.world (Outcome.reply 204 "")).http [] Demo.keyRequest
      = Outcome.reply 200 "" := by
    decide
  exact Prod.ext (h.2.2.2.1 200 "" hreply (by decide))
    (h.1 (fun err hrej => Outcome.noConfusion (hreply.symm.trans hrej)))

/-- C8: with an empty `apiKey`, when the login GET to `sessions` (carrying `email` and
`password`) is answered with a status below 300: if the body decodes to an object whose
`token` field is the string `token`, `NewClient` returns the client with `Token = token`;
if the body decodes to an object with no `token` field or with a `token` that is not a
string, or if it does not decode, `NewClient` returns an error and the nil client. -/
theorem NewClient_login_token (w : World) (baseUrl email password : String) (log : Log)
    (status : Int) (body : Bytes)
    (hreply : w.http log
        { method := Method.GET, url := baseUrl ++ "sessions",
          query := [("email", email), ("password", password)],
          contentType := none, body := none } = Outcome.reply status body)
    (hstatus : status < 300) :
    (∀ fields token, w.jsonObject body = Except.ok fields →
        fields "token" = some (Value.string token) →
      (NewClient w baseUrl email password "" log).1
        = (some { BaseUrl := baseUrl, Token := token }, none)) ∧
    (∀ fields, w.jsonObject body = Except.ok fields →
        (∀ token, fields "token" ≠ some (Value.string token)) →
      (NewClient w baseUrl email password "" log).1 = (none, some "token not found")) ∧
    (∀ err, w.jsonObject body = Except.error err →
      (NewClient w baseUrl email password "" log).1 = (none, some err)) := by
  have hs : ¬ status ≥ 300 := not_le.mpr hstatus
  have hq : [("email", email), ("password", password)]
      ++ Client.keyParam { BaseUrl := baseUrl, Token := "" }
      = [("email", email), ("password", password)] := by
    simp [Client.keyParam]
  obtain ⟨log1, hget⟩ : ∃ log1, Client.Get w { BaseUrl := baseUrl, Token := "" } "sessions"
      [("email", email), ("password", password)] log = ((status, body, none), log1) := by
    simp only [Client.Get, hq]
    rw [hreply]
    exact ⟨_, rfl⟩
  refine ⟨?_, ?_, ?_⟩
  · intro fields token hdec htok
    simp [NewClient, hget, hs, hdec, htok]
  · intro fields hdec hno
    simp only [NewClient, hget]
    simp only [ne_eq, not_true_eq_false, if_false, hs, hdec]
  · intro err hdec
    simp [NewClient, hget, hs, hdec]

/-- Witness of C8: the demo remote answers the login with a body holding the string token
"t0k3n", which becomes the token of the returned client. -/
theorem NewClient_login_token_witness :
    (NewClient (Demo.world (Outcome.reply 204 "")) Demo.base "dev@example.com" "hunter2"
        "" []).1
      = (some { BaseUrl := Demo.base, Token := "t0k3n" }, none) :=
  (NewClient_login_token (Demo.world (Outcome.reply 204 "")) Demo.base "dev@example.com"
    "hunter2" [] 200 Demo.sessionBody (by decide) (by decide)).1
    (fun k => if k = "token" then some (Value.string "t0k3n") else none) "t0k3n" rfl rfl

/-! ## The verb operations -/

/-- C12: each verb operation is a total function that returns what happened as values.
A URL rejected by `http.NewRequest` gives status 500 with that error; a transport error
gives 404 (`Get`, `Post`) or 500 (`Put`, `Delete`) with that error; a body that cannot be
read gives 500 with that error in `Get` and `Post`, which read it; only a response gives
its own status with a nil error.  So a non-nil error always comes with a status of 300 or
more, and a status below 300 with a nil error.  The branch of `Put` that would return
status 0 is the failure of `json.Marshal`, which has no failing input on a
`map[string]string`. -/
theorem verb_error_has_failure_status (w : World) (c : Client) (domain id : String)
    (params values : StrMap) (log : Log) :
    let getReq : Request :=
      { method := Method.GET, url := c.BaseUrl ++ domain, query := params ++ c.keyParam,
        contentType := none, body := none }
    let postReq : Request :=
      { method := Method.POST, url := c.BaseUrl ++ domain, query := params ++ c.keyParam,
        contentType := none, body := none }
    let putReq : Request :=
      { method := Method.PUT, url := c.BaseUrl ++ domain ++ "/" ++ id, query := c.keyParam,
        contentType := some "application/json", body := some values }
    let deleteReq : Request :=
      { method := Method.DELETE, url := c.BaseUrl ++ domain ++ "/" ++ id,
        query := c.keyParam, contentType := none, body := none }
    ((∀ err, w.http log getReq = Outcome.rejected err →
        (c.Get w domain params log).1 = (500, "", some err)) ∧
     (∀ err, w.http log getReq = Outcome.failed err →
        (c.Get w domain params log).1 = (404, "", some err)) ∧
     (∀ status err, w.http log getReq = Outcome.unread status err →
        (c.Get w domain params log).1 = (500, "", some err)) ∧
     (∀ status body, w.http log getReq = Outcome.reply status body →
        (c.Get w domain params log).1 = (status, body, none))) ∧
    ((∀ err, w.http log postReq = Outcome.rejected err →
        (c.Post w domain params log).1 = (500, "", some err)) ∧
     (∀ err, w.http log postReq = Outcome.failed err →
        (c.Post w domain params log).1 = (404, "", some err)) ∧
     (∀ status err, w.http log postReq = Outcome.unread status err →
        (c.Post w domain params log).1 = (500, "", some err)) ∧
     (∀ status body, w.http log postReq = Outcome.reply status body →
        (c.Post w domain params log).1 = (status, body, none))) ∧
    ((∀ err, w.http log putReq = Outcome.rejected err →
        (c.Put w domain id values log).1 = (500, some err)) ∧
     (∀ err, w.http log putReq = Outcome.failed err →
        (c.Put w domain id values log).1 = (500, some err)) ∧
     (∀ status err, w.http log putReq = Outcome.unread status err →
        (c.Put w domain id values log).1 = (status, none)) ∧
     (∀ status body, w.http log putReq = Outcome.reply status body →
        (c.Put w domain id values log).1 = (status, none))) ∧
    ((∀ err, w.http log deleteReq = Outcome.rejected err →
        (c.Delete w domain id log).1 = (500, some err)) ∧
     (∀ err, w.http log deleteReq = Outcome.failed err →
        (c.Delete w domain id log).1 = (500, some err)) ∧
     (∀ status err, w.http log deleteReq = Outcome.unread status err →
        (c.Delete w domain id log).1 = (status, none)) ∧
     (∀ status body, w.http log deleteReq = Outcome.reply status body →
        (c.Delete w domain id log).1 = (status, none))) ∧
    ((c.Get w domain params log).1.2.2 ≠ none → (c.Get w domain params log).1.1 ≥ 300) ∧
    ((c.Post w domain params log).1.2.2 ≠ none → (c.Post w domain params log).1.1 ≥ 300) ∧
    ((c.Put w domain id values log).1.2 ≠ none → (c.Put w domain id values log).1.1 ≥ 300) ∧
    ((c.Delete w domain id log).1.2 ≠ none → (c.Delete w domain id log).1.1 ≥ 300) ∧
    ((c.Get w domain params log).1.1 < 300 → (c.Get w domain params log).1.2.2 = none) ∧
    ((c.Post w domain params log).1.1 < 300 → (c.Post w domain params log).1.2.2 = none) ∧
    ((c.Put w domain id values log).1.1 < 300 → (c.Put w domain id values log).1.2 = none) ∧
    ((c.Delete w domain id log).1.1 < 300 → (c.Delete w domain id log).1.2 = none) ∧
    jsonMarshal values = Except.ok values := by
  intro getReq postReq putReq deleteReq
  refine ⟨⟨?_, ?_, ?_, ?_⟩, ⟨?_, ?_, ?_, ?_⟩, ⟨?_, ?_, ?_, ?_⟩, ⟨?_, ?_, ?_, ?_⟩,
    ?_, ?_, ?_, ?_, ?_, ?_, ?_, ?_, rfl⟩
  · intro err h
    simp only [Client.Get]
    rw [h]
  · intro err h
    simp only [Client.Get]
    rw [h]
  · intro status err h
    simp only [Client.Get]
    rw [h]
  · intro status body h
    simp only [Client.Get]
    rw [h]
  · intro err h
    simp only [Client.Post]
    rw [h]
  · intro err h
    simp only [Client.Post]
    rw [h]
  · intro status err h
    simp only [Client.Post]
    rw [h]
  · intro status body h
    simp only [Client.Post]
    rw [h]
  · intro err h
    simp only [Client.Put, jsonMarshal]
    rw [h]
  · intro err h
    simp only [Client.Put, jsonMarshal]
    rw [h]
  · intro status err h
    simp only [Client.Put, jsonMarshal]
    rw [h]
  · intro status body h
    simp only [Client.Put, jsonMarshal]
    rw [h]
  · intro err h
    simp only [Client.Delete]
    rw [h]
  · intro err h
    simp only [Client.Delete]
    rw [h]
  · intro status err h
    simp only [Client.Delete]
    rw [h]
  · intro status body h
    simp only [Client.Delete]
    rw [h]
  · simp only [Client.Get]
    cases w.http log _ <;> simp
  · simp only [Client.Post]
    cases w.http log _ <;> simp
  · simp only [Client.Put, jsonMarshal]
    cases w.http log _ <;> simp
  · simp only [Client.Delete]
    cases w.http log _ <;> simp
  · simp only [Client.Get]
    cases w.http log _ <;> simp
  · simp only [Client.Post]
    cases w.http log _ <;> simp
  · simp only [Client.Put, jsonMarshal]
    cases w.http log _ <;> simp
  · simp only [Client.Delete]
    cases w.http log _ <;> simp

/-- On the demo remote, a request with no route fails in the transport: `Get` and `Post`
return 404 with the error, `Put` and `Delete` return 500 with the error. -/
theorem verb_failure_demo :
    (Demo.client.Get (Demo.world (Outcome.reply 204 "")) "nowhere" [] []).1
      = (404, "", some "connection refused") ∧
    (Demo.client.Post (Demo.world (Outcome.reply 204 "")) "nowhere" [] []).1
      = (404, "", some "connection refused") ∧
    (Demo.client.Put (Demo.world (Outcome.reply 204 "")) "nowhere" "1" [] []).1
      = (500, some "connection refused") ∧
    (Demo.client.Delete (Demo.world (Outcome.reply 204 "")) "nowhere" "1" []).1
      = (500, some "connection refused") := by
  refine ⟨?_, ?_, ?_, ?_⟩ <;> decide

end Airbrake

namespace Provider

open Airbrake

/-! ## Provider configuration -/

/-- C9, evaluated on the code: when the configuration sets nothing, the API key is read
from `AIRBRAKE_BASE_URL` and the base URL from `AIRBRAKE_API_KEY`.  With the key, the email
and the password each in its own variable and no base URL anywhere, `Configure` passes to
`NewClient` the base URL "secret/" (the key with a slash) and an empty API key, so the
login request goes to "secret/sessions"; the production root is not used. -/
theorem Configure_reads_swapped_environment :
    Configure.resolve Demo.getenv Demo.emptyConfig
      = { baseurl := "secret", email := "dev@example.com", password := "hunter2",
          apikey := "" } ∧
    (Configure Demo.lenient Demo.getenv [] Demo.emptyConfig []).2
      = [{ method := Method.GET, url := "secret/sessions",
           query := [("email", "dev@example.com"), ("password", "hunter2")],
           contentType := none, body := none }] ∧
    (∀ getenv : String → String, (Configure.resolve getenv Demo.emptyConfig).apikey
      = getenv "AIRBRAKE_BASE_URL") ∧
    (∀ getenv : String → String, getenv "AIRBRAKE_API_KEY" ≠ "" →
      (Configure.resolve getenv Demo.emptyConfig).baseurl = getenv "AIRBRAKE_API_KEY") := by
  refine ⟨by decide, by decide, fun _ => rfl, ?_⟩
  intro getenv h
  have hlen : (getenv "AIRBRAKE_API_KEY").length ≠ 0 := by
    intro h0
    apply h
    apply String.ext
    exact List.length_eq_zero.mp h0
  simp [Configure.resolve, Demo.emptyConfig, TfString.IsNull, envAirbrakeApiKey, hlen]

theorem HasError_append (a b : List Diagnostic) :
    HasError (a ++ b) = (HasError a || HasError b) := by
  simp [HasError, List.any_append]

theorem HasError_Append (a b : List Diagnostic) :
    HasError (Append a b) = (HasError a || HasError b) := by
  induction b generalizing a with
  | nil => simp [Append, HasError]
  | cons d ds ih =>
    have hstep : Append a (d :: ds) = Append (if d ∈ a then a else a ++ [d]) ds := rfl
    rw [hstep, ih]
    by_cases hmem : d ∈ a
    · by_cases hd : d.severity = Severity.error
      · have ha : HasError a = true := by
          simp only [HasError, List.any_eq_true, decide_eq_true_eq]
          exact ⟨d, hmem, hd⟩
        simp [hmem, ha]
      · simp [hmem, HasError, hd]
    · simp [hmem, HasError, List.any_append, Bool.or_assoc]

theorem HasError_AddError (diags : List Diagnostic) (summary detail : String) :
    HasError (AddError diags summary detail) = true := by
  simp [AddError, HasError, List.any_append]

/-- The three hooks of the resource return after recording the error of the client
operation: the response then holds an error diagnostic and no state. -/
theorem resource_hooks_error_without_state (w : World)
    (set : ProjectDataSourceModel → List Diagnostic) (c : Client) (diags : List Diagnostic)
    (m : ProjectResourceModel) (log : Log) :
    ((c.CreateProject w m.convertToProject log).1.2 ≠ none →
      HasError (ProjectResource.Create w set c diags m log).1.Diagnostics = true ∧
      (ProjectResource.Create w set c diags m log).1.State = none) ∧
    ((c.GetProjectById w (Atoi m.Id.ValueString).1 log).1.2 ≠ none →
      HasError (ProjectResource.Read w set c diags m log).1.Diagnostics = true ∧
      (ProjectResource.Read w set c diags m log).1.State = none) ∧
    ((c.UpdateProject w m.convertToProject log).1 ≠ none →
      HasError (ProjectResource.Update w set c diags m log).1.Diagnostics = true ∧
      (ProjectResource.Update w set c diags m log).1.State = none) := by
  refine ⟨?_, ?_, ?_⟩
  · intro herr
    unfold ProjectResource.Create
    simp only
    split
    · rename_i h
      exact ⟨h, rfl⟩
    · split
      · exact ⟨HasError_AddError _ _ _, rfl⟩
      · rename_i heq
        rw [heq] at herr
        exact absurd rfl herr
  · intro herr
    unfold ProjectResource.Read
    simp only
    split
    · rename_i h
      exact ⟨h, rfl⟩
    · split
      · exact ⟨HasError_AddError _ _ _, rfl⟩
      · rename_i heq
        rw [heq] at herr
        exact absurd rfl herr
  · intro herr
    unfold ProjectResource.Update
    simp only
    split
    · rename_i h
      exact ⟨h, rfl⟩
    · split
      · exact ⟨HasError_AddError _ _ _, rfl⟩
      · rename_i heq
        rw [heq] at herr
        exact absurd rfl herr

/-- The `Read` of the data source does not return after recording the error of
`GetProject`: when the configuration decodes without error, `GetProject` fails and
`State.Set` accepts the value, the response holds the error diagnostic and, as state, the
attributes of the zero project. -/
theorem dataSource_Read_state_after_error (w : World)
    (set : ProjectDataSourceModel → List Diagnostic) (c : Client)
    (configDiags : List Diagnostic) (data : ProjectDataSourceModel) (log : Log)
    (hconfig : HasError configDiags = false)
    (herr : (c.GetProject w data.Name.ValueString log).1.2 ≠ none)
    (hset : HasError (set (projectState Project.zero)) = false) :
    HasError (ProjectDataSource.Read w set (some c) configDiags data log).1.Diagnostics = true ∧
    (ProjectDataSource.Read w set (some c) configDiags data log).1.State
      = some (projectState Project.zero) := by
  have hzero : (c.GetProject w data.Name.ValueString log).1.1 = Project.zero := by
    revert herr
    unfold Client.GetProject
    split
    · intro _
      rfl
    · split
      · intro h
        exact absurd rfl h
      · intro _
        rfl
  have hd : HasError (Append [] configDiags) = false := by
    rw [HasError_Append, hconfig]
    rfl
  unfold ProjectDataSource.Read
  simp only [hd, Bool.false_eq_true, if_false]
  cases hget : c.GetProject w data.Name.ValueString log with
  | mk res log1 =>
    cases res with
    | mk project err =>
      rw [hget] at herr hzero
      simp only at herr hzero
      cases err with
      | none => exact absurd rfl herr
      | some e =>
        subst hzero
        simp [StateSet, HasError_Append, HasError_AddError, hset]

/-- C11, evaluated on the code: on the demo remote, which lists no project named "nope",
the `Read` of the data source records the error diagnostic of `GetProject` and also stores
a state, the attributes of the zero project (empty name, id "0", empty key and language).
The three hooks of the resource return before storing any state. -/
theorem dataSource_Read_stores_state_with_error :
    ProjectDataSource.Read (Demo.world (Outcome.reply 204 "")) Demo.stored (some Demo.client)
        [] Demo.nopeConfig []
      = ({ Diagnostics :=
            [{ severity := Severity.error, root := none, summary := "Unable to fetch project",
               detail := "can\x27t find project : nope" }],
           State := some { Name := TfString.value "", Id := TfString.value "0",
                           ApiKey := TfString.value "", Language := TfString.value "" } },
         [Demo.listRequest]) := by
  decide

/-! ## Identifiers that are not numbers -/

/-- The model of `Atoi` on sample strings: numbers, names, and strings whose digits
overflow before or without an invalid character. -/
theorem Atoi_demo :
    Atoi "42" = (42, none) ∧ Atoi "-7" = (-7, none) ∧ Atoi "+7" = (7, none) ∧
    Atoi "" = (0, some NumError.ErrSyntax) ∧ Atoi "foo" = (0, some NumError.ErrSyntax) ∧
    Atoi "my-very-long-project-name" = (0, some NumError.ErrSyntax) ∧
    Atoi "9223372036854775807" = (9223372036854775807, none) ∧
    Atoi "9223372036854775808" = (9223372036854775807, some NumError.ErrRange) ∧
    Atoi "18446744073709551615x" = (0, some NumError.ErrSyntax) ∧
    Atoi "18446744073709551616x" = (9223372036854775807, some NumError.ErrRange) ∧
    Atoi "-99999999999999999999x" = (-9223372036854775808, some NumError.ErrRange) := by
  refine ⟨?_, ?_, ?_, ?_, ?_, ?_, ?_, ?_, ?_, ?_, ?_⟩ <;> decide

end Provider
